import Mathlib

/-!
Verification of the portfolio Value-at-Risk notebook
(`portfolio_management/Portfolio_Management_W_Value_Risk`).

The notebook is a linear pipeline:

* `returns = data.pct_change()`
* `mean_returns = returns.mean()`
* `port_mean = mean_returns.dot(weights)`
* `investment_mean = (1 + port_mean) * portfolio_value`
* `cov_matrix = returns.cov()`
* `port_stdev = np.sqrt(weights.T.dot(cov_matrix).dot(weights))`
* `investment_stdev = portfolio_value * port_stdev`
* `percent_point = norm.ppf(confidence, investment_mean, investment_stdev)`
* `value_at_risk = portfolio_value - percent_point`
* `value_at_risks = value_at_risk * np.sqrt(range(1, 31))`

We develop two models of the pipeline:

* an exact real-valued model, in which a price table is a `List (Fin n → ℝ)`
  of rows and the library calls (`pct_change`, `mean`, `cov`, dot products,
  `norm.ppf`) are translated one-by-one to functions on `ℝ`;
* a NaN-aware model over `Option ℝ` (`none` models a missing value / IEEE NaN,
  as well as the non-finite results of `scipy.stats.norm.ppf`), which captures
  the silent-NaN behaviour of pandas and scipy on degenerate inputs: pandas
  `pct_change` forward-fills missing prices (default `fill_method` pad),
  `mean` skips NaN entries, `cov` uses pairwise-complete observations, and
  `norm.ppf` returns NaN outside its domain instead of raising.

The quantile function of the standard normal distribution is defined from the
Mathlib Gaussian measure `ProbabilityTheory.gaussianReal`.
-/

namespace Trading

open MeasureTheory ProbabilityTheory Set Filter
open scoped Topology NNReal

/-! ### Notebook parameters -/

/-- Tickers of the notebook: `tickers = ['AAPL', 'META', 'C', 'DIS']`. -/
def tickers : List String := ["AAPL", "META", "C", "DIS"]

/-- Portfolio weights of the notebook: `weights = np.array([0.25, 0.3, 0.15, 0.3])`. -/
noncomputable def weights : Fin 4 → ℝ := ![0.25, 0.3, 0.15, 0.3]

/-- Notional of the notebook: `portfolio_value = 1_000`. -/
noncomputable def portfolio_value : ℝ := 1000

/-- Confidence level of the notebook: `confidence = 0.05`. -/
noncomputable def confidence : ℝ := 0.05

/-! ### Exact real-valued model of the pipeline -/

/-- Model of `returns = data.pct_change()` on a price table without missing
values: row `t` of the result (for `t` from `1`) is
`p[t] / p[t-1] - 1` entrywise.  The first result row of pandas `pct_change`
is all-NaN and is ignored by every downstream aggregation (`mean`, `cov`
skip NaN), so this model omits it; the NaN-aware model `pct_changeF` below
keeps it. -/
noncomputable def pct_change {n : ℕ} (data : List (Fin n → ℝ)) : List (Fin n → ℝ) :=
  List.zipWith (fun prev cur j => cur j / prev j - 1) data data.tail

/-- Model of `mean_returns = returns.mean()`: column-wise arithmetic mean. -/
noncomputable def mean_returns {n : ℕ} (returns : List (Fin n → ℝ)) : Fin n → ℝ :=
  fun j => (returns.map fun r => r j).sum / returns.length

/-- Model of `cov_matrix = returns.cov()`: pandas sample covariance of the
columns, with the `N - 1` denominator (pandas default `ddof = 1`). -/
noncomputable def cov_matrix {n : ℕ} (returns : List (Fin n → ℝ)) : Matrix (Fin n) (Fin n) ℝ :=
  Matrix.of fun i j =>
    (returns.map fun r =>
        (r i - mean_returns returns i) * (r j - mean_returns returns j)).sum
      / ((returns.length : ℝ) - 1)

/-- Model of `port_mean = mean_returns.dot(weights)`. -/
noncomputable def port_mean {n : ℕ} (m w : Fin n → ℝ) : ℝ := Matrix.dotProduct m w

/-- Model of `investment_mean = (1 + port_mean) * portfolio_value`. -/
def investment_mean (pm pv : ℝ) : ℝ := (1 + pm) * pv

/-- Model of the quadratic form `weights.T.dot(cov_matrix).dot(weights)`
computed inside `port_stdev`: the portfolio return variance. -/
noncomputable def port_variance {n : ℕ} (w : Fin n → ℝ) (cov : Matrix (Fin n) (Fin n) ℝ) : ℝ :=
  Matrix.dotProduct (Matrix.vecMul w cov) w

/-- Model of `port_stdev = np.sqrt(weights.T.dot(cov_matrix).dot(weights))`:
the square root of the quadratic form of the covariance matrix at the weight
vector. -/
noncomputable def port_stdev {n : ℕ} (w : Fin n → ℝ) (cov : Matrix (Fin n) (Fin n) ℝ) : ℝ :=
  Real.sqrt (port_variance w cov)

/-- Model of `investment_stdev = portfolio_value * port_stdev`. -/
def investment_stdev (pv ps : ℝ) : ℝ := pv * ps

/-! ### Standard normal distribution, its CDF and quantile function -/

/-- Cumulative distribution function of the standard normal distribution,
defined from the Mathlib Gaussian measure: `stdNormalCDF x = P(X ≤ x)` for
`X` standard normal. -/
noncomputable def stdNormalCDF (x : ℝ) : ℝ := (gaussianReal 0 1 (Iic x)).toReal

open Classical in
/-- Quantile function (inverse CDF) of the standard normal distribution:
the point where the CDF attains the value `α`, when such a point exists
(it does exactly for `α` in the open unit interval). -/
noncomputable def stdNormalQuantile (α : ℝ) : ℝ :=
  if h : ∃ x, stdNormalCDF x = α then h.choose else 0

/-- Model of `scipy.stats.norm.ppf(q, loc, scale)` on its domain
(`0 < q < 1`, `0 < scale`): the scipy implementation applies the
location-scale transformation `loc + scale * ppf(q)` to the standard normal
quantile. -/
noncomputable def norm_ppf (q loc scale : ℝ) : ℝ := loc + scale * stdNormalQuantile q

/-- Model of `percent_point = norm.ppf(confidence, investment_mean, investment_stdev)`. -/
noncomputable def percent_point (c im istd : ℝ) : ℝ := norm_ppf c im istd

/-- Model of `value_at_risk = portfolio_value - percent_point`. -/
noncomputable def value_at_risk (c im istd pv : ℝ) : ℝ := pv - percent_point c im istd

/-- Model of `value_at_risks = value_at_risk * np.sqrt(range(1, 31))`:
`range(1, 31)` enumerates the horizon days `1, ..., 30` in order and `np.sqrt`
acts elementwise. -/
noncomputable def value_at_risks (v : ℝ) : List ℝ :=
  (List.range' 1 30).map fun d : ℕ => v * Real.sqrt (d : ℝ)

/-! ### NaN-aware model

An `Option ℝ` models a pandas / numpy float value: `none` is NaN (or a missing
value; for `norm.ppf` it also models the infinite results at `q = 0` and
`q = 1`), `some x` is the finite value `x`. -/

/-- Model of `scipy.stats.norm.ppf` including its out-of-domain behaviour:
scipy performs an argument check and returns NaN (it does not raise) when
`q` is outside the unit interval or the scale is not positive, and returns
an infinite value at `q = 0` and `q = 1`; all of these are modelled by
`none`. -/
noncomputable def norm_ppfF (q loc scale : ℝ) : Option ℝ :=
  if 0 < q ∧ q < 1 ∧ 0 < scale then some (norm_ppf q loc scale) else none

/-- NaN-aware model of `value_at_risk = portfolio_value - percent_point`:
subtracting NaN from the notional yields NaN. -/
noncomputable def value_at_riskF (c im istd pv : ℝ) : Option ℝ :=
  (norm_ppfF c im istd).map fun p => pv - p

/-- Forward fill of a column, threading the most recent observation
(`last`): each missing entry is replaced by the last observed value, and
stays missing when nothing has been observed yet.  This is the pandas pad
fill used by `pct_change` with its default `fill_method`. -/
def ffillFrom (last : Option ℝ) : List (Option ℝ) → List (Option ℝ)
  | [] => []
  | some a :: xs => some a :: ffillFrom (some a) xs
  | none :: xs => last :: ffillFrom last xs

/-- Last observation of a column, starting from `last`: the state in which
`ffillFrom` leaves off after traversing the column. -/
def lastObs (last : Option ℝ) (col : List (Option ℝ)) : Option ℝ :=
  col.foldl (fun acc x => match x with | some a => some a | none => acc) last

/-- Ratio step of `pct_change`: the simple return of two consecutive
(already forward-filled) prices, NaN when either is missing. -/
noncomputable def pctStep (prev cur : Option ℝ) : Option ℝ :=
  match prev, cur with
  | some p, some c => some (c / p - 1)
  | _, _ => none

/-- NaN-aware model of pandas `Series.pct_change()` with the default
`fill_method` (pad): the column is forward-filled, then entry `t` of the
result (for `t` from `1`) is `filled[t] / filled[t-1] - 1` when both values
are observed and NaN otherwise; the first entry is always NaN. -/
noncomputable def pct_changeF (col : List (Option ℝ)) : List (Option ℝ) :=
  match col with
  | [] => []
  | _ :: _ =>
    none :: List.zipWith pctStep (ffillFrom none col) (ffillFrom none col).tail

/-- NaN-aware model of pandas `Series.mean()`: NaN entries are skipped and
the mean of an empty set of observations is NaN. -/
noncomputable def meanF (col : List (Option ℝ)) : Option ℝ :=
  let obs := col.filterMap id
  if obs.length = 0 then none else some (obs.sum / (obs.length : ℝ))

/-- Pairwise-complete observations of two columns: the rows in which both
entries are observed, as used by pandas `DataFrame.cov()`. -/
def pairObs (c1 c2 : List (Option ℝ)) : List (ℝ × ℝ) :=
  (List.zip c1 c2).filterMap fun pc =>
    match pc with
    | (some a, some b) => some (a, b)
    | _ => none

/-- NaN-aware model of one entry of pandas `DataFrame.cov()`: the sample
covariance (denominator `N - 1`) over the pairwise-complete observations of
the two columns, NaN when fewer than two such observations exist. -/
noncomputable def covF (c1 c2 : List (Option ℝ)) : Option ℝ :=
  let pairs := pairObs c1 c2
  if pairs.length < 2 then none
  else
    let m1 := (pairs.map Prod.fst).sum / (pairs.length : ℝ)
    let m2 := (pairs.map Prod.snd).sum / (pairs.length : ℝ)
    some ((pairs.map fun ab => (ab.1 - m1) * (ab.2 - m2)).sum / ((pairs.length : ℝ) - 1))

/-! ### Supporting lemmas -/

theorem list_sum_map_eq_fin_sum {α : Type} (l : List α) (f : α → ℝ) :
    (l.map f).sum = ∑ i : Fin l.length, f (l.get i) := by
  induction l with
  | nil => simp
  | cons a l ih =>
    rw [List.map_cons, List.sum_cons, ih]
    exact (Fin.sum_univ_succ fun i : Fin (l.length + 1) => f ((a :: l).get i)).symm

/-! ### Claims about the Horizon Scaler and the Portfolio Aggregator -/

/-- C2: the Horizon Scaler output has exactly one entry per horizon day
`d = 1, ..., 30`, in order, and the entry for day `d = i + 1` equals the
one-day VaR times the square root of `d`. -/
theorem value_at_risks_spec (v : ℝ) :
    (value_at_risks v).length = 30 ∧
    ∀ (i : ℕ) (h : i < (value_at_risks v).length),
      (value_at_risks v).get ⟨i, h⟩ = v * Real.sqrt ((i : ℝ) + 1) := by
  constructor
  · simp [value_at_risks]
  · intro i h
    simp only [value_at_risks, List.get_eq_getElem, List.getElem_map, List.getElem_range']
    congr 1
    push_cast
    ring_nf

/-- Witness for C2: the horizon sequence for a one-day VaR of `2`, evaluated
at day `9`. -/
theorem value_at_risks_spec_witness :
    (value_at_risks 2).length = 30 ∧
    (value_at_risks 2).get ⟨8, by simp [value_at_risks]⟩ = 2 * Real.sqrt ((8 : ℝ) + 1) :=
  ⟨(value_at_risks_spec 2).1, (value_at_risks_spec 2).2 8 (by simp [value_at_risks])⟩

/-- C3: the Portfolio Aggregator returns portfolio mean return
`dot(w, m)`, expected investment value `(1 + dot(w, m)) * V`, portfolio
standard deviation `sqrt(wᵗ C w)` and investment standard deviation
`V * sqrt(wᵗ C w)`. -/
theorem portfolio_aggregator_spec {n : ℕ} (m w : Fin n → ℝ)
    (C : Matrix (Fin n) (Fin n) ℝ) (V : ℝ) (hV : 0 < V) :
    port_mean m w = ∑ i, w i * m i ∧
    investment_mean (port_mean m w) V = (1 + ∑ i, w i * m i) * V ∧
    port_stdev w C = Real.sqrt (∑ i, ∑ j, w i * C i j * w j) ∧
    investment_stdev V (port_stdev w C)
      = V * Real.sqrt (∑ i, ∑ j, w i * C i j * w j) := by
  have hq : port_variance w C = ∑ i, ∑ j, w i * C i j * w j := by
    simp only [port_variance, Matrix.dotProduct, Matrix.vecMul, Finset.sum_mul]
    rw [Finset.sum_comm]
  have hm : port_mean m w = ∑ i, w i * m i := by
    simp only [port_mean, Matrix.dotProduct]
    exact Finset.sum_congr rfl fun i _ => mul_comm _ _
  exact ⟨hm, by rw [investment_mean, hm], by rw [port_stdev, hq],
    by rw [investment_stdev, port_stdev, hq]⟩

/-- Witness for C3: a single-asset portfolio with mean return `0.001`,
return variance `0.0004` and notional `1000`. -/
theorem portfolio_aggregator_spec_witness :
    port_mean ![(0.001 : ℝ)] ![1] = ∑ i, (![(1 : ℝ)]) i * (![(0.001 : ℝ)]) i ∧
    investment_mean (port_mean ![(0.001 : ℝ)] ![1]) 1000
      = (1 + ∑ i, (![(1 : ℝ)]) i * (![(0.001 : ℝ)]) i) * 1000 ∧
    port_stdev ![1] !![(0.0004 : ℝ)]
      = Real.sqrt (∑ i, ∑ j, (![(1 : ℝ)]) i * (!![(0.0004 : ℝ)]) i j * (![(1 : ℝ)]) j) ∧
    investment_stdev 1000 (port_stdev ![1] !![(0.0004 : ℝ)])
      = 1000 * Real.sqrt (∑ i, ∑ j, (![(1 : ℝ)]) i * (!![(0.0004 : ℝ)]) i j * (![(1 : ℝ)]) j) :=
  portfolio_aggregator_spec ![0.001] ![1] !![0.0004] 1000 (by norm_num)

/-- C8: for a weight vector summing to one and a positive semi-definite
covariance matrix, the quadratic form computed by the Portfolio Aggregator is
nonnegative. -/
theorem port_variance_nonneg {n : ℕ} (w : Fin n → ℝ) (C : Matrix (Fin n) (Fin n) ℝ)
    (hw : ∑ i, w i = 1) (hC : C.PosSemidef) :
    0 ≤ port_variance w C := by
  rw [port_variance]
  have h := hC.2 w
  have hstar : star w = w := by
    funext i
    exact star_trivial (w i)
  rw [hstar, Matrix.dotProduct_mulVec] at h
  exact h

/-- Witness for C8: the single-asset weight vector and the zero covariance
matrix. -/
theorem port_variance_nonneg_witness :
    0 ≤ port_variance ![(1 : ℝ)] (0 : Matrix (Fin 1) (Fin 1) ℝ) :=
  port_variance_nonneg ![1] 0 (by simp)
    ⟨Matrix.isHermitian_zero, fun x => by simp⟩

/-- C9: for a single-asset portfolio with weight one and covariance matrix
`[[v]]` with `v ≥ 0`, the portfolio standard deviation is exactly the standard
deviation `sqrt v` of that asset. -/
theorem single_asset_stdev (v : ℝ) (hv : 0 ≤ v) :
    port_stdev ![(1 : ℝ)] !![v] = Real.sqrt v := by
  simp [port_stdev, port_variance, Matrix.vecMul, Matrix.dotProduct]

/-- Witness for C9: a single asset with return variance `4`. -/
theorem single_asset_stdev_witness : port_stdev ![(1 : ℝ)] !![(4 : ℝ)] = Real.sqrt 4 :=
  single_asset_stdev 4 (by norm_num)

/-! ### Claims about the Return Statistics component -/

/-- C4: on a price table with at least two rows of positive prices, the
Return Statistics component computes each return entry as
`p[t+1][j] / p[t][j] - 1` (the undefined first row being absent), the mean
return vector as the arithmetic mean of each return column, and the
covariance matrix as the sample covariance of the return columns with the
denominator `number of return rows - 1`, the number of return rows being
`data.length - 1`. -/
theorem return_statistics_spec {n : ℕ} (data : List (Fin n → ℝ))
    (h2 : 2 ≤ data.length) (hpos : ∀ r ∈ data, ∀ j, 0 < r j) :
    (pct_change data).length = data.length - 1 ∧
    (∀ (t : ℕ) (h : t + 1 < data.length) (hR : t < (pct_change data).length) (j : Fin n),
      (pct_change data).get ⟨t, hR⟩ j
        = data.get ⟨t + 1, h⟩ j / data.get ⟨t, Nat.lt_of_succ_lt h⟩ j - 1) ∧
    (∀ j : Fin n, mean_returns (pct_change data) j
        = (∑ t : Fin (pct_change data).length, (pct_change data).get t j)
            / ((data.length : ℝ) - 1)) ∧
    (∀ i j : Fin n, cov_matrix (pct_change data) i j
        = (∑ t : Fin (pct_change data).length,
            ((pct_change data).get t i - mean_returns (pct_change data) i)
              * ((pct_change data).get t j - mean_returns (pct_change data) j))
            / (((data.length : ℝ) - 1) - 1)) := by
  have hlen : (pct_change data).length = data.length - 1 := by
    simp only [pct_change, List.length_zipWith, List.length_tail]
    omega
  have hc : ((pct_change data).length : ℝ) = (data.length : ℝ) - 1 := by
    rw [hlen, Nat.cast_sub (by omega)]
    norm_num
  refine ⟨hlen, ?_, ?_, ?_⟩
  · intro t h hR j
    simp only [pct_change, List.get_eq_getElem, List.getElem_zipWith, List.getElem_tail]
  · intro j
    simp only [mean_returns, list_sum_map_eq_fin_sum, hc]
  · intro i j
    simp only [cov_matrix, Matrix.of_apply, list_sum_map_eq_fin_sum, hc]

/-- Witness for C4: the three-row, one-asset price table `100, 110, 121`. -/
theorem return_statistics_spec_witness :
    (pct_change [![(100 : ℝ)], ![110], ![121]]).length
        = ([![(100 : ℝ)], ![110], ![121]] : List (Fin 1 → ℝ)).length - 1 ∧
    (∀ (t : ℕ) (h : t + 1 < ([![(100 : ℝ)], ![110], ![121]] : List (Fin 1 → ℝ)).length)
        (hR : t < (pct_change [![(100 : ℝ)], ![110], ![121]]).length) (j : Fin 1),
      (pct_change [![(100 : ℝ)], ![110], ![121]]).get ⟨t, hR⟩ j
        = ([![(100 : ℝ)], ![110], ![121]] : List (Fin 1 → ℝ)).get ⟨t + 1, h⟩ j
            / ([![(100 : ℝ)], ![110], ![121]] : List (Fin 1 → ℝ)).get
                ⟨t, Nat.lt_of_succ_lt h⟩ j - 1) ∧
    (∀ j : Fin 1, mean_returns (pct_change [![(100 : ℝ)], ![110], ![121]]) j
        = (∑ t : Fin (pct_change [![(100 : ℝ)], ![110], ![121]]).length,
            (pct_change [![(100 : ℝ)], ![110], ![121]]).get t j)
            / ((([![(100 : ℝ)], ![110], ![121]] : List (Fin 1 → ℝ)).length : ℝ) - 1)) ∧
    (∀ i j : Fin 1, cov_matrix (pct_change [![(100 : ℝ)], ![110], ![121]]) i j
        = (∑ t : Fin (pct_change [![(100 : ℝ)], ![110], ![121]]).length,
            ((pct_change [![(100 : ℝ)], ![110], ![121]]).get t i
                - mean_returns (pct_change [![(100 : ℝ)], ![110], ![121]]) i)
              * ((pct_change [![(100 : ℝ)], ![110], ![121]]).get t j
                - mean_returns (pct_change [![(100 : ℝ)], ![110], ![121]]) j))
            / (((([![(100 : ℝ)], ![110], ![121]] : List (Fin 1 → ℝ)).length : ℝ) - 1) - 1)) :=
  return_statistics_spec [![100], ![110], ![121]] (by norm_num)
    (by intro r hr j; fin_cases hr <;> fin_cases j <;> norm_num)

/-! ### Error-handling claims: what the code actually does on bad input -/

/-- Counterexample to C5: at confidence level `1.2` the code does return a
NaN VaR value.  The call `norm.ppf(1.2, mean, std)` returns NaN instead of
raising, and `portfolio_value - NaN` is NaN, so `value_at_risk` is NaN
(modelled by `none`); no invalid-input failure interrupts the pipeline. -/
theorem value_at_risk_nan_at_bad_confidence :
    value_at_riskF (12 / 10) (10008 / 10) (1403 / 100) 1000 = none := by
  rw [value_at_riskF, norm_ppfF, if_neg]
  · rfl
  · rintro ⟨-, h, -⟩
    norm_num at h

/-- Amended C5: for a confidence level outside the open unit interval the
pipeline is not interrupted by an invalid-input error; `norm.ppf` returns NaN
and the VaR propagates as NaN (`none`), never as a finite number. -/
theorem value_at_risk_nan_outside_unit_interval (q im istd pv : ℝ)
    (hq : q ≤ 0 ∨ 1 ≤ q) :
    value_at_riskF q im istd pv = none := by
  rw [value_at_riskF, norm_ppfF, if_neg]
  · rfl
  · rintro ⟨h0, h1, -⟩
    rcases hq with h | h <;> linarith

/-- Witness for the amended C5, at confidence level `2`. -/
theorem value_at_risk_nan_outside_unit_interval_witness :
    value_at_riskF 2 0 1 100 = none :=
  value_at_risk_nan_outside_unit_interval 2 0 1 100 (by norm_num)

/-- Counterexample to C6: on the single-row price table `[100]` the Return
Statistics step does not fail with an insufficient-history error; pandas
produces an all-NaN return column whose mean is again NaN (`none`), and the
pipeline proceeds with it. -/
theorem return_statistics_nan_on_single_row :
    meanF (pct_changeF [some (100 : ℝ)]) = none := by
  rw [pct_changeF]
  rw [meanF]
  rfl

/-- Amended C6: on a price table with fewer than two rows the return column
consists of at most the initial NaN entry, its mean is NaN, and no failure is
signalled: the statistics silently degenerate to NaN. -/
theorem return_statistics_nan_on_short_table (col : List (Option ℝ))
    (h : col.length < 2) :
    meanF (pct_changeF col) = none := by
  match col, h with
  | [], _ => rfl
  | [some a], _ => rfl
  | [none], _ => rfl

/-- Witness for the amended C6, at the one-row table `[50]`. -/
theorem return_statistics_nan_on_short_table_witness :
    meanF (pct_changeF [some (50 : ℝ)]) = none :=
  return_statistics_nan_on_short_table [some 50] (by norm_num)

/-! ### The standard normal CDF and its quantile function -/

theorem stdNormalCDF_eq_integral (x : ℝ) :
    stdNormalCDF x = ∫ t in Iic x, gaussianPDFReal 0 1 t := by
  rw [stdNormalCDF, gaussianReal_apply_eq_integral 0 one_ne_zero, ENNReal.toReal_ofReal]
  exact setIntegral_nonneg measurableSet_Iic fun t _ => gaussianPDFReal_nonneg 0 1 t

theorem stdNormalCDF_strictMono : StrictMono stdNormalCDF := by
  intro x y hxy
  have hint := integrable_gaussianPDFReal 0 1
  have h1 : stdNormalCDF y - stdNormalCDF x = ∫ t in x..y, gaussianPDFReal 0 1 t := by
    rw [stdNormalCDF_eq_integral, stdNormalCDF_eq_integral]
    exact intervalIntegral.integral_Iic_sub_Iic hint.integrableOn hint.integrableOn
  have h2 : 0 < ∫ t in x..y, gaussianPDFReal 0 1 t :=
    intervalIntegral.intervalIntegral_pos_of_pos hint.intervalIntegrable
      (fun t => gaussianPDFReal_pos 0 1 t one_ne_zero) hxy
  linarith

theorem stdNormalCDF_continuous : Continuous stdNormalCDF := by
  have hint := integrable_gaussianPDFReal 0 1
  have hrepr : stdNormalCDF
      = fun x => (∫ t in (0 : ℝ)..x, gaussianPDFReal 0 1 t) + stdNormalCDF 0 := by
    funext x
    have h := intervalIntegral.integral_Iic_sub_Iic (μ := volume)
      (f := gaussianPDFReal 0 1) (a := (0 : ℝ)) (b := x)
      hint.integrableOn hint.integrableOn
    rw [stdNormalCDF_eq_integral, stdNormalCDF_eq_integral] at *
    linarith
  rw [hrepr]
  exact (intervalIntegral.continuous_primitive
    (fun u w => hint.intervalIntegrable) 0).add continuous_const

theorem stdNormalCDF_eq_cdf (x : ℝ) : stdNormalCDF x = cdf (gaussianReal 0 1) x := by
  rw [stdNormalCDF, cdf_eq_toReal]

theorem tendsto_stdNormalCDF_atTop : Tendsto stdNormalCDF atTop (𝓝 1) :=
  (tendsto_cdf_atTop (gaussianReal 0 1)).congr fun x => (stdNormalCDF_eq_cdf x).symm

theorem tendsto_stdNormalCDF_atBot : Tendsto stdNormalCDF atBot (𝓝 0) :=
  (tendsto_cdf_atBot (gaussianReal 0 1)).congr fun x => (stdNormalCDF_eq_cdf x).symm

theorem exists_stdNormalCDF_eq {α : ℝ} (h0 : 0 < α) (h1 : α < 1) :
    ∃ x, stdNormalCDF x = α := by
  obtain ⟨a, ha⟩ := (tendsto_stdNormalCDF_atBot.eventually_lt_const h0).exists
  obtain ⟨b, hb⟩ := (tendsto_stdNormalCDF_atTop.eventually_const_lt h1).exists
  have hab : a < b := stdNormalCDF_strictMono.lt_iff_lt.mp (lt_trans ha hb)
  obtain ⟨x, -, hx⟩ := intermediate_value_Icc hab.le
    stdNormalCDF_continuous.continuousOn ⟨ha.le, hb.le⟩
  exact ⟨x, hx⟩

theorem stdNormalCDF_quantile {α : ℝ} (h0 : 0 < α) (h1 : α < 1) :
    stdNormalCDF (stdNormalQuantile α) = α := by
  have h := exists_stdNormalCDF_eq h0 h1
  simp only [stdNormalQuantile]
  rw [dif_pos h]
  exact h.choose_spec

theorem stdNormalQuantile_lt_quantile {a b : ℝ} (h0 : 0 < a) (hab : a < b) (h1 : b < 1) :
    stdNormalQuantile a < stdNormalQuantile b := by
  by_contra hle
  push_neg at hle
  have hmono := stdNormalCDF_strictMono.monotone hle
  rw [stdNormalCDF_quantile (lt_trans h0 hab) h1,
    stdNormalCDF_quantile h0 (lt_trans hab h1)] at hmono
  linarith

/-! ### Claims about the VaR Estimator -/

/-- C1: for an expected investment value `m`, investment standard deviation
`s > 0`, confidence level `α` in the open unit interval and notional `V`, the
VaR Estimator returns `V - x` where `x = norm_ppf α m s` is the `α`-quantile
of the normal distribution with mean `m` and standard deviation `s`: the
probability that such a normal variable is at most `x` equals `α`. -/
theorem value_at_risk_spec (m s α V : ℝ) (hs : 0 < s) (h0 : 0 < α) (h1 : α < 1) :
    value_at_risk α m s V = V - norm_ppf α m s ∧
    (gaussianReal m ⟨s ^ 2, sq_nonneg s⟩ (Iic (norm_ppf α m s))).toReal = α := by
  refine ⟨rfl, ?_⟩
  have hmap1 : gaussianReal m (⟨s ^ 2, sq_nonneg s⟩ : ℝ≥0)
      = (gaussianReal 0 ⟨s ^ 2, sq_nonneg s⟩).map (· + m) := by
    rw [gaussianReal_map_add_const, zero_add]
  have hmap2 : gaussianReal 0 (⟨s ^ 2, sq_nonneg s⟩ : ℝ≥0)
      = (gaussianReal 0 1).map (s * ·) := by
    rw [gaussianReal_map_const_mul, mul_zero, mul_one]
  rw [hmap1, Measure.map_apply (measurable_id'.add_const m) measurableSet_Iic,
    preimage_add_const_Iic, hmap2,
    Measure.map_apply (measurable_id'.const_mul s) measurableSet_Iic,
    preimage_const_mul_Iic _ hs]
  have hq : (norm_ppf α m s - m) / s = stdNormalQuantile α := by
    rw [norm_ppf]
    field_simp
  rw [hq]
  exact stdNormalCDF_quantile h0 h1

/-- Witness for C1: mean `0`, standard deviation `1`, confidence level `1/2`,
notional `1000`. -/
theorem value_at_risk_spec_witness :
    value_at_risk (1 / 2) 0 1 1000 = 1000 - norm_ppf (1 / 2) 0 1 ∧
    (gaussianReal 0 ⟨(1 : ℝ) ^ 2, sq_nonneg 1⟩ (Iic (norm_ppf (1 / 2) 0 1))).toReal = 1 / 2 :=
  value_at_risk_spec 0 1 (1 / 2) 1000 one_pos (by norm_num) (by norm_num)

/-- C7: for fixed mean `m`, standard deviation `s > 0` and notional `V`, the
one-day VaR is strictly antitone in the confidence level: lowering the
confidence level strictly increases the VaR. -/
theorem value_at_risk_antitone (m s V α₁ α₂ : ℝ) (hs : 0 < s)
    (h0 : 0 < α₂) (hlt : α₂ < α₁) (h1 : α₁ < 1) :
    value_at_risk α₁ m s V < value_at_risk α₂ m s V := by
  have hq : stdNormalQuantile α₂ < stdNormalQuantile α₁ :=
    stdNormalQuantile_lt_quantile h0 hlt h1
  have hmul := mul_lt_mul_of_pos_left hq hs
  simp only [value_at_risk, percent_point, norm_ppf]
  linarith

/-- Witness for C7: mean `0`, standard deviation `1`, notional `100`,
confidence levels `3/4` and `1/4`. -/
theorem value_at_risk_antitone_witness :
    value_at_risk (3 / 4) 0 1 100 < value_at_risk (1 / 4) 0 1 100 :=
  value_at_risk_antitone 0 1 100 (3 / 4) (1 / 4) one_pos (by norm_num) (by norm_num)
    (by norm_num)

/-! ### Forward-fill behaviour of pct_change on tables with missing entries -/

theorem ffillFrom_length (a : Option ℝ) (l : List (Option ℝ)) :
    (ffillFrom a l).length = l.length := by
  induction l generalizing a with
  | nil => rfl
  | cons x xs ih => cases x <;> simp [ffillFrom, ih]

theorem lastObs_cons (a x : Option ℝ) (xs : List (Option ℝ)) :
    lastObs a (x :: xs) = lastObs (match x with | some b => some b | none => a) xs := by
  cases x <;> rfl

theorem ffillFrom_append (a : Option ℝ) (xs ys : List (Option ℝ)) :
    ffillFrom a (xs ++ ys) = ffillFrom a xs ++ ffillFrom (lastObs a xs) ys := by
  induction xs generalizing a with
  | nil => rfl
  | cons x xs ih => cases x <;> simp [ffillFrom, lastObs_cons, ih]

theorem ffillFrom_replicate_none (a : Option ℝ) (k : ℕ) :
    ffillFrom a (List.replicate k none) = List.replicate k a := by
  induction k with
  | zero => rfl
  | succ k ih => simp [List.replicate_succ, ffillFrom, ih]

theorem lastObs_replicate_none (a : Option ℝ) (k : ℕ) :
    lastObs a (List.replicate k none) = a := by
  induction k with
  | zero => rfl
  | succ k ih => simpa [List.replicate_succ, lastObs_cons] using ih

theorem pct_changeF_ne_nil {col : List (Option ℝ)} (h : col ≠ []) :
    pct_changeF col
      = none :: List.zipWith pctStep (ffillFrom none col) (ffillFrom none col).tail := by
  match col, h with
  | x :: xs, _ => rfl

theorem filled_decomp (pre post : List (Option ℝ)) (p q : ℝ) (k : ℕ) :
    ffillFrom none (pre ++ some p :: (List.replicate k none ++ some q :: post))
      = ffillFrom none pre
          ++ some p :: (List.replicate k (some p) ++ some q :: ffillFrom (some q) post) := by
  rw [ffillFrom_append]
  congr 1
  show some p :: ffillFrom (some p) (List.replicate k none ++ some q :: post) = _
  rw [ffillFrom_append, ffillFrom_replicate_none, lastObs_replicate_none]
  rfl

/-- C10 helper: the forward-filled column holds the last observed price `p`
at the observation row and throughout the following gap of `k` missing
rows. -/
theorem filled_getElem_gap (pre post : List (Option ℝ)) (p q : ℝ) (k : ℕ)
    (j : ℕ) (hj : j ≤ k) :
    (ffillFrom none (pre ++ some p :: (List.replicate k none ++ some q :: post)))[pre.length + j]?
      = some (some p) := by
  rw [filled_decomp, List.getElem?_append_right (by rw [ffillFrom_length]; omega),
    ffillFrom_length, Nat.add_sub_cancel_left]
  cases j with
  | zero => rw [List.getElem?_cons_zero]
  | succ i =>
    rw [List.getElem?_cons_succ,
      List.getElem?_append_left (by simp only [List.length_replicate]; omega),
      List.getElem?_replicate_of_lt (by omega)]

/-- C10 helper: the forward-filled column holds the next observed price `q`
at the row following the gap. -/
theorem filled_getElem_next (pre post : List (Option ℝ)) (p q : ℝ) (k : ℕ) :
    (ffillFrom none
        (pre ++ some p :: (List.replicate k none ++ some q :: post)))[pre.length + k + 1]?
      = some (some q) := by
  rw [filled_decomp, List.getElem?_append_right (by rw [ffillFrom_length]; omega),
    ffillFrom_length]
  have h1 : pre.length + k + 1 - pre.length = k + 1 := by omega
  rw [h1, List.getElem?_cons_succ,
    List.getElem?_append_right (by simp only [List.length_replicate]; omega)]
  simp only [List.length_replicate, Nat.sub_self]
  rw [List.getElem?_cons_zero]

/-- C10: on a price column with a gap of `k` missing entries between an
observed price `p` and the next observed price `q`, the pandas return
computation does not fail and does not propagate NaN for the gap: each gap
row is filled with the last observed price so its return is `0`, and the
return of the next observed row is computed against the last observed price,
`q / p - 1`.  Downstream, `mean` drops remaining NaN entries instead of
failing and `cov` works on the pairwise-complete observations. -/
theorem pct_change_gap_spec (pre post : List (Option ℝ)) (p q : ℝ) (k : ℕ)
    (hp : p ≠ 0) :
    (∀ t : ℕ, pre.length < t → t ≤ pre.length + k →
      (pct_changeF (pre ++ some p :: (List.replicate k none ++ some q :: post)))[t]?
        = some (some 0)) ∧
    (pct_changeF
        (pre ++ some p :: (List.replicate k none ++ some q :: post)))[pre.length + k + 1]?
      = some (some (q / p - 1)) ∧
    (∀ c : List (Option ℝ), c.filterMap id ≠ [] →
      meanF c = some ((c.filterMap id).sum / ((c.filterMap id).length : ℝ))) ∧
    (∀ c₁ c₂ : List (Option ℝ), 2 ≤ (pairObs c₁ c₂).length → (covF c₁ c₂).isSome) := by
  have hne : pre ++ some p :: (List.replicate k none ++ some q :: post) ≠ [] := by simp
  refine ⟨?_, ?_, ?_, ?_⟩
  · intro t h1 h2
    obtain ⟨j, rfl⟩ : ∃ j, t = pre.length + j := ⟨t - pre.length, by omega⟩
    rw [pct_changeF_ne_nil hne]
    have hsplit : pre.length + j = (pre.length + (j - 1)) + 1 := by omega
    rw [hsplit, List.getElem?_cons_succ]
    refine List.getElem?_zipWith_eq_some.mpr ⟨some p, some p, ?_, ?_, ?_⟩
    · exact filled_getElem_gap pre post p q k (j - 1) (by omega)
    · rw [List.getElem?_tail, ← hsplit]
      exact filled_getElem_gap pre post p q k j (by omega)
    · simp [pctStep, div_self hp]
  · rw [pct_changeF_ne_nil hne]
    have hsplit : pre.length + k + 1 = (pre.length + k) + 1 := rfl
    rw [hsplit, List.getElem?_cons_succ]
    refine List.getElem?_zipWith_eq_some.mpr ⟨some p, some q, ?_, ?_, rfl⟩
    · exact filled_getElem_gap pre post p q k k le_rfl
    · rw [List.getElem?_tail]
      exact filled_getElem_next pre post p q k
  · intro c hc
    simp only [meanF]
    rw [if_neg (by simpa [List.length_eq_zero] using hc)]
  · intro c₁ c₂ h
    simp only [covF]
    rw [if_neg (by omega)]
    rfl

/-- Witness for C10: the one-asset column `100, NaN, 110`: the gap row gets
return `0` and the following row the return `110 / 100 - 1` against the last
observed price; the NaN-skipping mean and covariance are checked on the same
shapes. -/
theorem pct_change_gap_spec_witness :
    (∀ t : ℕ, ([] : List (Option ℝ)).length < t → t ≤ ([] : List (Option ℝ)).length + 1 →
      (pct_changeF (([] : List (Option ℝ))
          ++ some (100 : ℝ) :: (List.replicate 1 none ++ some (110 : ℝ) :: [])))[t]?
        = some (some 0)) ∧
    (pct_changeF (([] : List (Option ℝ))
        ++ some (100 : ℝ)
          :: (List.replicate 1 none
            ++ some (110 : ℝ) :: [])))[([] : List (Option ℝ)).length + 1 + 1]?
      = some (some ((110 : ℝ) / 100 - 1)) ∧
    (∀ c : List (Option ℝ), c.filterMap id ≠ [] →
      meanF c = some ((c.filterMap id).sum / ((c.filterMap id).length : ℝ))) ∧
    (∀ c₁ c₂ : List (Option ℝ), 2 ≤ (pairObs c₁ c₂).length → (covF c₁ c₂).isSome) :=
  pct_change_gap_spec ([] : List (Option ℝ)) ([] : List (Option ℝ)) 100 110 1 (by norm_num)

end Trading
